import Mathlib

/-!
Verification of the thermal-monitor core (`src/thermal-monitor-gui/src/app.rs`)
against its natural-language specification.

Temperatures are `f32` values in the Rust source; inside this file they are
only stored, compared and copied (never arithmetically combined), so they are
modelled as rationals (`ℚ`).  A `VecDeque` is modelled as a `List` whose head
is the deque's front: `pop_front` is `List.tail` (a no-op on the empty list,
matching `VecDeque::pop_front` returning `None` and doing nothing), and
`push_back` appends at the tail.  `egui::Color32` values are modelled as RGB
triples of naturals.
-/

namespace ThermalMonitor

/-- The `Mode` enum from the crate's `system` module.  Its six variants are
fixed by the exhaustive `match` in `ThermalApp::mode_color`
(app.rs lines 182-191). -/
inductive Mode where
  | Performance
  | Comfort
  | Balanced
  | Quiet
  | Auto
  | Unknown
deriving DecidableEq

/-- The `ThermalZone` enum from the crate's `system` module; the six
variants, in increasing severity order, are fixed by the exhaustive lists in
the tests (app.rs lines 590-597) and by spec §3. -/
inductive ThermalZone where
  | Cool
  | Comfort
  | Optimal
  | Warm
  | Hot
  | Critical
deriving DecidableEq

/-- Severity rank of a zone: its position in the spec §3 severity order
`Cool < Comfort < Optimal < Warm < Hot < Critical`. -/
def ThermalZone.severityRank : ThermalZone → ℕ
  | .Cool => 0
  | .Comfort => 1
  | .Optimal => 2
  | .Warm => 3
  | .Hot => 4
  | .Critical => 5

/-- `TemperatureHistory` (app.rs lines 41-45): two `VecDeque<f32>` plus the
capacity recorded at construction. -/
structure TemperatureHistory where
  cpu_temps : List ℚ
  kbd_temps : List ℚ
  capacity : ℕ
deriving DecidableEq

namespace TemperatureHistory

/-- `TemperatureHistory::new` (app.rs lines 54-60): both deques start empty
(`VecDeque::with_capacity` only pre-allocates, it stores nothing). -/
def new (capacity : ℕ) : TemperatureHistory :=
  { cpu_temps := [], kbd_temps := [], capacity := capacity }

/-- `TemperatureHistory::push` (app.rs lines 62-69): when the cpu deque is at
or above capacity, pop the front of both deques, then push the new sample at
the back of both. -/
def push (h : TemperatureHistory) (cpu kbd : ℚ) : TemperatureHistory :=
  if h.capacity ≤ h.cpu_temps.length then
    { h with
        cpu_temps := h.cpu_temps.tail ++ [cpu],
        kbd_temps := h.kbd_temps.tail ++ [kbd] }
  else
    { h with
        cpu_temps := h.cpu_temps ++ [cpu],
        kbd_temps := h.kbd_temps ++ [kbd] }

/-- `TemperatureHistory::len` (app.rs lines 93-95): the cpu deque's length. -/
def len (h : TemperatureHistory) : ℕ :=
  h.cpu_temps.length

/-- `TemperatureHistory::cpu_points` (app.rs lines 72-80): the cpu samples
paired with their 0-based positions, front (oldest) first.  The Rust closure
`|(i, &t)| [i as f64, t as f64]` packs each enumerated pair into a length-2
plot point; the pair `(i, t)` models that point. -/
def cpu_points (h : TemperatureHistory) : List (ℕ × ℚ) :=
  h.cpu_temps.enum

/-- `TemperatureHistory::kbd_points` (app.rs lines 83-91). -/
def kbd_points (h : TemperatureHistory) : List (ℕ × ℚ) :=
  h.kbd_temps.enum

/-- The retained samples as (cpu, kbd) pairs, oldest first. -/
def pairs (h : TemperatureHistory) : List (ℚ × ℚ) :=
  h.cpu_temps.zip h.kbd_temps

end TemperatureHistory

/-- A sequence of `push` calls, applied oldest first. -/
def pushAll (h : TemperatureHistory) (ps : List (ℚ × ℚ)) : TemperatureHistory :=
  ps.foldl (fun acc p => acc.push p.1 p.2) h

/-- Histories reachable from `TemperatureHistory::new` by `push` calls; the
struct's fields are private in the Rust source, so these are exactly the
states client code can build. -/
inductive Reachable : TemperatureHistory → Prop where
  | new (c : ℕ) : Reachable (TemperatureHistory.new c)
  | push (h : TemperatureHistory) (cpu kbd : ℚ) :
      Reachable h → Reachable (h.push cpu kbd)

/-- `GatewayError`: modelled from the spec, §7 — the host rejected a mode or
fan-boost write.  Its payload is never inspected by the driver code under
verification. -/
inductive GatewayError where
  | rejected (msg : String)
deriving DecidableEq

/-- `ControlError`: modelled from the spec, §7 — wraps a `GatewayError`
encountered while the Automatic Controller attempted a corrective action. -/
inductive ControlError where
  | gateway (e : GatewayError)
deriving DecidableEq

/-- `ThermalState` from the crate's `system` module, with exactly the fields
the driver code in app.rs reads (`cpu_temp`, `keyboard_temp`, `mode`,
`perf_pct`, `fan_boost`, `platform_profile`; spec §3). -/
structure ThermalState where
  cpu_temp : ℚ
  keyboard_temp : ℚ
  mode : Mode
  perf_pct : ℕ
  fan_boost : Bool
  platform_profile : String
deriving DecidableEq

/-- `ThermalApp` (app.rs lines 103-111).  The `last_update : Instant` field
and the `Instant` timestamp attached to `status_message` carry real time and
are not modelled; `status_message` keeps only the message text. -/
structure ThermalApp where
  state : ThermalState
  history : TemperatureHistory
  status_message : Option String
  target_temp : ℚ
  auto_control : Bool
  fan_boost_manual : Bool

/-- `ThermalApp::update_state` (app.rs lines 137-149).  The two external
calls made by the body are passed in as parameters: `read` is the value
returned by `ThermalState::read()` this tick (an infallible call — it
returns a plain `ThermalState`, not a `Result`), and `atc` is
`apply_thermal_control`, which the body invokes on
`(self.state.cpu_temp, self.target_temp)` only when `auto_control` is set.
The body unconditionally replaces `self.state` and pushes the fresh sample,
then sets a status message only for an `Ok` result different from the
`"On target"` sentinel. -/
def ThermalApp.update_state (atc : ℚ → ℚ → Except ControlError String)
    (read : ThermalState) (app : ThermalApp) : ThermalApp :=
  let newHistory := app.history.push read.cpu_temp read.keyboard_temp
  let newMsg :=
    if app.auto_control then
      match atc read.cpu_temp app.target_temp with
      | Except.ok msg => if msg ≠ "On target" then some msg else app.status_message
      | Except.error _ => app.status_message
    else app.status_message
  { app with state := read, history := newHistory, status_message := newMsg }

/-- `ThermalApp::mode_color` (app.rs lines 182-191), as an RGB triple;
`egui::Color32::GRAY` is `(160, 160, 160)`. -/
def mode_color : Mode → ℕ × ℕ × ℕ
  | .Performance => (255, 100, 100)
  | .Comfort => (100, 200, 255)
  | .Balanced => (150, 220, 100)
  | .Quiet => (180, 180, 220)
  | .Auto => (255, 200, 100)
  | .Unknown => (160, 160, 160)

/-- All six `Mode` variants. -/
def Mode.elems : List Mode :=
  [.Performance, .Comfort, .Balanced, .Quiet, .Auto, .Unknown]

/-- Modelled from the spec: `classify` (the zone classifier
`ThermalState::thermal_zone`) lives in the crate's `system` module, which is
not under src/.  Spec §4.1 specifies a pure total function on temperatures
whose contiguous, non-overlapping ranges cover the whole line and whose five
boundary values are an implementation parameter, monotone in the severity
order; the five thresholds are therefore taken as parameters here. -/
def classify (t₁ t₂ t₃ t₄ t₅ temp : ℚ) : ThermalZone :=
  if temp < t₁ then .Cool
  else if temp < t₂ then .Comfort
  else if temp < t₃ then .Optimal
  else if temp < t₄ then .Warm
  else if temp < t₅ then .Hot
  else .Critical

/-- A concrete controller result used to instantiate the driver theorems:
`apply_thermal_control` answering the `"On target"` sentinel. -/
def onTargetAtcW : ℚ → ℚ → Except ControlError String :=
  fun _ _ => Except.ok ("On target")

/-- A concrete healthy `ThermalState` read. -/
def thermalReadW : ThermalState :=
  { cpu_temp := 50, keyboard_temp := 40, mode := Mode.Balanced,
    perf_pct := 80, fan_boost := false, platform_profile := "balanced" }

/-- A concrete driver state with automatic control enabled. -/
def thermalAppW : ThermalApp :=
  { state := thermalReadW, history := TemperatureHistory.new 60,
    status_message := none, target_temp := 55, auto_control := true,
    fan_boost_manual := false }

/-- A concrete controller result for the failed-read tick. -/
def failAtcC5 : ℚ → ℚ → Except ControlError String :=
  fun _ _ => Except.ok ("On target")

/-- The in-band read-failure value (spec §3: temperatures are 0 or negative
on read failure). -/
def failedReadC5 : ThermalState :=
  { cpu_temp := 0, keyboard_temp := 0, mode := Mode.Unknown,
    perf_pct := 0, fan_boost := false, platform_profile := "" }

/-- The previous (healthy) `ThermalState` held before the failed tick. -/
def prevStateC5 : ThermalState :=
  { cpu_temp := 50, keyboard_temp := 40, mode := Mode.Balanced,
    perf_pct := 80, fan_boost := false, platform_profile := "balanced" }

/-- A concrete driver state before the failed tick: one sample in the
history, automatic control off. -/
def failAppC5 : ThermalApp :=
  { state := prevStateC5, history := (TemperatureHistory.new 60).push 50 40,
    status_message := none, target_temp := 55, auto_control := false,
    fan_boost_manual := false }

/-! ### Helper lemmas -/

theorem pushAll_append (h : TemperatureHistory) (ps : List (ℚ × ℚ)) (p : ℚ × ℚ) :
    pushAll h (ps ++ [p]) = (pushAll h ps).push p.1 p.2 := by
  simp [pushAll]

theorem cpu_temps_push (h : TemperatureHistory) (cpu kbd : ℚ) :
    (h.push cpu kbd).cpu_temps =
      if h.capacity ≤ h.cpu_temps.length then h.cpu_temps.tail ++ [cpu]
      else h.cpu_temps ++ [cpu] := by
  unfold TemperatureHistory.push
  split <;> rfl

theorem kbd_temps_push (h : TemperatureHistory) (cpu kbd : ℚ) :
    (h.push cpu kbd).kbd_temps =
      if h.capacity ≤ h.cpu_temps.length then h.kbd_temps.tail ++ [kbd]
      else h.kbd_temps ++ [kbd] := by
  unfold TemperatureHistory.push
  split <;> rfl

theorem capacity_push (h : TemperatureHistory) (cpu kbd : ℚ) :
    (h.push cpu kbd).capacity = h.capacity := by
  unfold TemperatureHistory.push
  split <;> rfl

theorem capacity_pushAll (h : TemperatureHistory) (ps : List (ℚ × ℚ)) :
    (pushAll h ps).capacity = h.capacity := by
  induction ps using List.reverseRecOn with
  | nil => rfl
  | append_singleton ps p ih => rw [pushAll_append, capacity_push, ih]

/-- One `push` step, expressed on a single deque: popping the front (when at
or above capacity) and appending keeps exactly the last `max C 1` elements. -/
theorem drop_push_aux {α : Type} (C : ℕ) (n : ℕ) (l : List α) (x : α)
    (hl : l.length = n) :
    (if C ≤ n - (n - max C 1) then (l.drop (n - max C 1)).tail ++ [x]
     else l.drop (n - max C 1) ++ [x])
      = (l ++ [x]).drop (n + 1 - max C 1) := by
  subst hl
  by_cases hcond : C ≤ l.length - (l.length - max C 1)
  · rw [if_pos hcond, List.tail_drop,
      List.drop_append_of_le_length (by omega : l.length + 1 - max C 1 ≤ l.length)]
    by_cases hnK : max C 1 ≤ l.length
    · have he : l.length - max C 1 + 1 = l.length + 1 - max C 1 := by omega
      rw [he]
    · have hn : l.length = 0 := by omega
      have hnil : l = [] := List.length_eq_zero.mp hn
      subst hnil
      simp
  · rw [if_neg hcond]
    have h₁ : l.length - max C 1 = 0 := by omega
    have h₂ : l.length + 1 - max C 1 = 0 := by omega
    rw [h₁, h₂]
    simp

/-- Core characterisation: after pushing the sequence `ps` into a fresh
buffer of capacity `C`, each deque holds exactly the last `max C 1` pushed
components, in insertion order.  (`max C 1` because a push at capacity 0
pops an empty front and still inserts.) -/
theorem pushAll_new_eq (C : ℕ) (ps : List (ℚ × ℚ)) :
    (pushAll (TemperatureHistory.new C) ps).cpu_temps
        = (ps.map Prod.fst).drop (ps.length - max C 1)
    ∧ (pushAll (TemperatureHistory.new C) ps).kbd_temps
        = (ps.map Prod.snd).drop (ps.length - max C 1) := by
  induction ps using List.reverseRecOn with
  | nil => simp [pushAll, TemperatureHistory.new]
  | append_singleton ps p ih =>
      obtain ⟨ihc, ihk⟩ := ih
      constructor
      · rw [pushAll_append, cpu_temps_push, capacity_pushAll, ihc]
        simp only [List.length_drop, List.length_map, List.map_append,
          List.map_cons, List.map_nil, List.length_append, List.length_cons,
          List.length_nil, Nat.zero_add]
        exact drop_push_aux C ps.length (ps.map Prod.fst) p.1
          (List.length_map ps Prod.fst)
      · rw [pushAll_append, kbd_temps_push, capacity_pushAll, ihc, ihk]
        simp only [List.length_drop, List.length_map, List.map_append,
          List.map_cons, List.map_nil, List.length_append, List.length_cons,
          List.length_nil, Nat.zero_add]
        exact drop_push_aux C ps.length (ps.map Prod.snd) p.2
          (List.length_map ps Prod.snd)

theorem len_pushAll_new (C : ℕ) (ps : List (ℚ × ℚ)) :
    (pushAll (TemperatureHistory.new C) ps).len = min ps.length (max C 1) := by
  have hc := (pushAll_new_eq C ps).1
  unfold TemperatureHistory.len
  rw [hc, List.length_drop, List.length_map]
  omega

theorem len_push (h : TemperatureHistory) (cpu kbd : ℚ) :
    (h.push cpu kbd).len =
      if h.capacity ≤ h.len then (h.len - 1) + 1 else h.len + 1 := by
  unfold TemperatureHistory.len
  rw [cpu_temps_push]
  split <;> simp [List.length_tail]

/-- `push` keeps the two deques the same length. -/
theorem push_sync (h : TemperatureHistory) (cpu kbd : ℚ)
    (heq : h.cpu_temps.length = h.kbd_temps.length) :
    (h.push cpu kbd).cpu_temps.length = (h.push cpu kbd).kbd_temps.length := by
  rw [cpu_temps_push, kbd_temps_push]
  split <;> simp [List.length_tail, heq]

/-- Every reachable history has deques of the same length. -/
theorem reachable_sync (h : TemperatureHistory) (hr : Reachable h) :
    h.cpu_temps.length = h.kbd_temps.length := by
  induction hr with
  | new c => rfl
  | push h cpu kbd hr ih => exact push_sync h cpu kbd ih

theorem zip_map_fst_snd {α β : Type} (l : List (α × β)) :
    (l.map Prod.fst).zip (l.map Prod.snd) = l := by
  have hz := List.zip_unzip l
  rw [List.unzip_eq_map] at hz
  exact hz

/-! ### Claims -/

/-- Claim C1: for every capacity `C ≥ 1` and every sequence of `N` pushes
into a buffer created by `TemperatureHistory::new(C)`, `len()` afterwards
equals `min N C`. -/
theorem len_after_pushes (C : ℕ) (ps : List (ℚ × ℚ)) (hC : 1 ≤ C) :
    (pushAll (TemperatureHistory.new C) ps).len = min ps.length C := by
  rw [len_pushAll_new]
  omega

theorem len_after_pushes_witness :
    1 ≤ 3 ∧ (pushAll (TemperatureHistory.new 3)
      [(40, 35), (42, 36), (44, 37), (46, 38)]).len = min 4 3 :=
  ⟨by decide, by
    have h := len_after_pushes 3 [(40, 35), (42, 36), (44, 37), (46, 38)] (by decide)
    simpa using h⟩

/-- Claim C2: pushing `C + 1` distinct pairs into a fresh buffer of capacity
`C ≥ 1` evicts exactly the first pushed pair; the retained contents are
pairs `2 .. C+1` in their original insertion order (both as (cpu, kbd) pairs
and componentwise in each deque). -/
theorem fifo_eviction (C : ℕ) (ps : List (ℚ × ℚ)) (hC : 1 ≤ C)
    (hlen : ps.length = C + 1) (_hnd : ps.Nodup) :
    (pushAll (TemperatureHistory.new C) ps).pairs = ps.drop 1
    ∧ (pushAll (TemperatureHistory.new C) ps).cpu_temps = (ps.drop 1).map Prod.fst
    ∧ (pushAll (TemperatureHistory.new C) ps).kbd_temps = (ps.drop 1).map Prod.snd := by
  obtain ⟨hc, hk⟩ := pushAll_new_eq C ps
  have hidx : ps.length - max C 1 = 1 := by omega
  rw [hidx] at hc hk
  rw [← List.map_drop] at hc hk
  refine ⟨?_, hc, hk⟩
  unfold TemperatureHistory.pairs
  rw [hc, hk, zip_map_fst_snd]

theorem fifo_eviction_witness :
    (1 ≤ 2 ∧ ([((1 : ℚ), (2 : ℚ)), (3, 4), (5, 6)]).length = 2 + 1)
    ∧ (pushAll (TemperatureHistory.new 2) [(1, 2), (3, 4), (5, 6)]).pairs
        = [(3, 4), (5, 6)] :=
  ⟨⟨by decide, by decide⟩, by
    have h := (fifo_eviction 2 [(1, 2), (3, 4), (5, 6)] (by decide) (by decide)
      (by decide)).1
    simpa using h⟩

/-- Claim C3: every history reachable from `TemperatureHistory::new` by
`push` calls has cpu and kbd deques of identical length, and `push`
preserves that invariant. -/
theorem pair_sync_invariant :
    (∀ h : TemperatureHistory, Reachable h →
      h.cpu_temps.length = h.kbd_temps.length)
    ∧ (∀ (h : TemperatureHistory) (cpu kbd : ℚ),
        h.cpu_temps.length = h.kbd_temps.length →
        (h.push cpu kbd).cpu_temps.length = (h.push cpu kbd).kbd_temps.length) :=
  ⟨reachable_sync, push_sync⟩

theorem pair_sync_invariant_witness :
    ((TemperatureHistory.new 60).push 50 40).cpu_temps.length
      = ((TemperatureHistory.new 60).push 50 40).kbd_temps.length :=
  pair_sync_invariant.1 _ (Reachable.push _ 50 40 (Reachable.new 60))

/-- Claim C4: when `apply_thermal_control` returns `Ok` with the sentinel
`"On target"`, `update_state` leaves the status message unchanged; a status
message is set (changed) only when the result is `Ok` with a non-sentinel
message (and automatic control is on), so the sentinel is never surfaced. -/
theorem sentinel_not_surfaced (atc : ℚ → ℚ → Except ControlError String)
    (read : ThermalState) (app : ThermalApp) :
    (atc read.cpu_temp app.target_temp = Except.ok ("On target") →
      (ThermalApp.update_state atc read app).status_message = app.status_message)
    ∧ (∀ msg : String, atc read.cpu_temp app.target_temp = Except.ok msg →
        msg ≠ "On target" → app.auto_control = true →
        (ThermalApp.update_state atc read app).status_message = some msg)
    ∧ ((ThermalApp.update_state atc read app).status_message ≠ app.status_message →
        app.auto_control = true
        ∧ ∃ msg : String, msg ≠ "On target"
            ∧ atc read.cpu_temp app.target_temp = Except.ok msg
            ∧ (ThermalApp.update_state atc read app).status_message = some msg) := by
  cases hB : app.auto_control with
  | false =>
      refine ⟨fun _ => ?_, fun msg hres hmsg hac => ?_, fun hne => ?_⟩
      · simp [ThermalApp.update_state, hB]
      · exact absurd hac (by decide)
      · exact absurd (show (ThermalApp.update_state atc read app).status_message
            = app.status_message by simp [ThermalApp.update_state, hB]) hne
  | true =>
      cases hres : atc read.cpu_temp app.target_temp with
      | error e =>
          refine ⟨fun hok => ?_, fun msg hok hmsg hac => ?_, fun hne => ?_⟩
          · exact absurd hok (by simp)
          · exact absurd hok (by simp)
          · exact absurd (show (ThermalApp.update_state atc read app).status_message
                = app.status_message by simp [ThermalApp.update_state, hB, hres]) hne
      | ok msg =>
          by_cases hmsg : msg = "On target"
          · subst hmsg
            refine ⟨fun _ => ?_, fun msg' hok hmsg' hac => ?_, fun hne => ?_⟩
            · simp [ThermalApp.update_state, hB, hres]
            · have hmm : msg' = "On target" := by
                have hh := hok
                simp at hh
                exact hh.symm
              exact absurd hmm hmsg'
            · exact absurd (show (ThermalApp.update_state atc read app).status_message
                  = app.status_message by
                    simp [ThermalApp.update_state, hB, hres]) hne
          · refine ⟨fun hok => ?_, fun msg' hok hmsg' hac => ?_, fun _ => ?_⟩
            · have hmm : msg = "On target" := by simpa using hok
              exact absurd hmm hmsg
            · have hmm : msg = msg' := by simpa using hok
              subst hmm
              simp [ThermalApp.update_state, hB, hres, hmsg]
            · exact ⟨rfl, msg, hmsg, rfl,
                by simp [ThermalApp.update_state, hB, hres, hmsg]⟩

theorem sentinel_not_surfaced_witness :
    (ThermalApp.update_state onTargetAtcW thermalReadW thermalAppW).status_message
      = thermalAppW.status_message :=
  (sentinel_not_surfaced onTargetAtcW thermalReadW thermalAppW).1 rfl

/-- Claim C5, counterexample.  `ThermalState::read()` returns a plain
`ThermalState` (spec §3: on read failure the temperatures are reported
in-band as 0 or negative), and `update_state` has no skip path: at this
concrete tick whose read is the failure value (cpu 0), the driver still
replaces the previous `ThermalState` and still pushes a sample, so it does
not retain the previous state and does not skip the history push. -/
theorem read_failure_still_pushes :
    (ThermalApp.update_state failAtcC5 failedReadC5 failAppC5).history.len
        = failAppC5.history.len + 1
    ∧ (ThermalApp.update_state failAtcC5 failedReadC5 failAppC5).state = failedReadC5
    ∧ (ThermalApp.update_state failAtcC5 failedReadC5 failAppC5).state ≠ failAppC5.state := by
  refine ⟨?_, rfl, ?_⟩
  · decide
  · decide

/-- Claim C5, amended: on every poll tick — whatever `ThermalState::read`
returned and whatever `apply_thermal_control` does — `update_state` replaces
the stored `ThermalState` with the fresh read and pushes exactly one new
sample into the history (so for a history within its capacity `C ≥ 1` the
length becomes `min (len + 1) C`); failures never skip the push or retain
the old state. -/
theorem tick_always_pushes (atc : ℚ → ℚ → Except ControlError String)
    (read : ThermalState) (app : ThermalApp) :
    (ThermalApp.update_state atc read app).state = read
    ∧ (ThermalApp.update_state atc read app).history
        = app.history.push read.cpu_temp read.keyboard_temp
    ∧ (1 ≤ app.history.capacity → app.history.len ≤ app.history.capacity →
        (ThermalApp.update_state atc read app).history.len
          = min (app.history.len + 1) app.history.capacity) := by
  refine ⟨rfl, rfl, fun hc hlen => ?_⟩
  show (app.history.push read.cpu_temp read.keyboard_temp).len = _
  rw [len_push]
  split <;> omega

theorem tick_always_pushes_witness :
    (ThermalApp.update_state failAtcC5 failedReadC5 failAppC5).history.len
      = min (failAppC5.history.len + 1) failAppC5.history.capacity :=
  (tick_always_pushes failAtcC5 failedReadC5 failAppC5).2.2 (by decide) (by decide)

/-- Claim C6: zone classification is total (every temperature maps to
exactly one zone) and monotone in severity: with the five range boundaries
in threshold order, `a < b` implies the severity rank of `classify a` is at
most that of `classify b`.  (`ℚ` stands for the totally ordered, non-NaN
`f32` values.) -/
theorem classify_total_monotone (t₁ t₂ t₃ t₄ t₅ : ℚ)
    (h₁₂ : t₁ ≤ t₂) (h₂₃ : t₂ ≤ t₃) (h₃₄ : t₃ ≤ t₄) (h₄₅ : t₄ ≤ t₅)
    (a b : ℚ) (hab : a < b) :
    (∃! z : ThermalZone, classify t₁ t₂ t₃ t₄ t₅ a = z)
    ∧ (classify t₁ t₂ t₃ t₄ t₅ a).severityRank
        ≤ (classify t₁ t₂ t₃ t₄ t₅ b).severityRank := by
  refine ⟨⟨classify t₁ t₂ t₃ t₄ t₅ a, rfl, fun z hz => hz.symm⟩, ?_⟩
  unfold classify
  split_ifs <;> simp only [ThermalZone.severityRank] <;> first
    | omega
    | linarith

theorem classify_total_monotone_witness :
    ((45 : ℚ) ≤ 55 ∧ (30 : ℚ) < 90)
    ∧ (classify 45 55 65 75 85 30).severityRank
        ≤ (classify 45 55 65 75 85 90).severityRank :=
  ⟨⟨by norm_num, by norm_num⟩,
    (classify_total_monotone 45 55 65 75 85 (by norm_num) (by norm_num)
      (by norm_num) (by norm_num) 30 90 (by norm_num)).2⟩

/-- Claim C7: for every reachable history, `cpu_points` and `kbd_points`
each have length `len()`, their indices are exactly `0 .. len()-1` in
strictly increasing order starting at 0 for the oldest retained sample, and
their values are the retained samples in insertion order. -/
theorem points_spec (h : TemperatureHistory) (hr : Reachable h) :
    h.cpu_points.length = h.len
    ∧ h.kbd_points.length = h.len
    ∧ h.cpu_points.map Prod.fst = List.range h.len
    ∧ h.kbd_points.map Prod.fst = List.range h.len
    ∧ h.cpu_points.map Prod.snd = h.cpu_temps
    ∧ h.kbd_points.map Prod.snd = h.kbd_temps := by
  have hsync := reachable_sync h hr
  unfold TemperatureHistory.cpu_points TemperatureHistory.kbd_points
    TemperatureHistory.len
  refine ⟨List.enum_length, ?_, List.enum_map_fst _, ?_,
    List.enum_map_snd _, List.enum_map_snd _⟩
  · rw [List.enum_length, hsync]
  · rw [List.enum_map_fst, hsync]

theorem points_spec_witness :
    ((TemperatureHistory.new 2).push 40 35).cpu_points.map Prod.fst
      = List.range ((TemperatureHistory.new 2).push 40 35).len :=
  (points_spec _ (Reachable.push _ 40 35 (Reachable.new 2))).2.2.1

/-- Claim C8, counterexample: for a buffer of capacity 0, a single push
yields `len() = 1`, violating `len() ≤ C`. -/
theorem capacity_zero_violates_bound :
    ((TemperatureHistory.new 0).push 40 35).len = 1
    ∧ ¬ ((TemperatureHistory.new 0).push 40 35).len
          ≤ (TemperatureHistory.new 0).capacity := by
  refine ⟨?_, ?_⟩ <;> decide

/-- Claim C8, amended: for every history reachable from
`TemperatureHistory::new(C)` with `C ≥ 1`, the invariant `len() ≤ C` holds
at all times (`push` at capacity 0 still inserts, so the restriction to
`C ≥ 1` is necessary). -/
theorem len_le_capacity_of_pos (h : TemperatureHistory) (hr : Reachable h) :
    1 ≤ h.capacity → h.len ≤ h.capacity := by
  induction hr with
  | new c =>
      intro _
      exact Nat.zero_le c
  | push h cpu kbd hr ih =>
      rw [capacity_push]
      intro hc
      have hlen := ih hc
      rw [len_push]
      split <;> omega

theorem len_le_capacity_of_pos_witness :
    ((TemperatureHistory.new 3).push 1 2).len
      ≤ ((TemperatureHistory.new 3).push 1 2).capacity :=
  len_le_capacity_of_pos _ (Reachable.push _ 1 2 (Reachable.new 3)) (by decide)

/-- Claim C9: `mode_color` is injective over the six `Mode` variants — no
two distinct variants get the same RGB color (and `Mode.elems` enumerates
every variant). -/
theorem mode_color_injective :
    (∀ m₁ m₂ : Mode, mode_color m₁ = mode_color m₂ → m₁ = m₂)
    ∧ (Mode.elems.map mode_color).Nodup
    ∧ (∀ m : Mode, m ∈ Mode.elems) := by
  refine ⟨?_, by decide, ?_⟩
  · intro m₁ m₂
    cases m₁ <;> cases m₂ <;> decide
  · intro m
    cases m <;> simp [Mode.elems]

theorem mode_color_injective_witness : Mode.Auto = Mode.Auto :=
  mode_color_injective.1 Mode.Auto Mode.Auto rfl

/-- Claim C10: a buffer constructed with capacity 0 still inserts on every
push — each push at or above capacity removes at most one front element
before inserting — so after any `N ≥ 1` pushes `len()` is exactly 1. -/
theorem capacity_zero_holds_one (ps : List (ℚ × ℚ)) (hps : 1 ≤ ps.length) :
    (pushAll (TemperatureHistory.new 0) ps).len = 1 := by
  rw [len_pushAll_new]
  omega

theorem capacity_zero_holds_one_witness :
    1 ≤ ([((40 : ℚ), (35 : ℚ)), (42, 36)]).length
    ∧ (pushAll (TemperatureHistory.new 0) [(40, 35), (42, 36)]).len = 1 :=
  ⟨by decide, capacity_zero_holds_one [(40, 35), (42, 36)] (by decide)⟩

end ThermalMonitor
